import Mathlib

/-!
Verification of the archive-acquisition pipeline of `issues_landscape`
(`loader/loader.py`, `downloaders/dumps_downloader.py`, `landscape/utils.py`)
against its natural-language specification.

The Python functions are shallowly embedded as Lean functions.  File contents
are byte lists (`List Nat`), filesystem paths are component lists
(`List String`), and the network is an explicit input: a `RemoteFile` records
the remote resource's bytes together with whether the server honours HTTP
`Range` requests (the spec's §6 external-interface model: satisfiable byte
ranges return the requested slice; a server without range support returns the
full body with status 200, which `requests.get` hands to the caller unchanged).
-/

namespace IssuesLandscape

/-- A remote resource as seen by the downloader: its payload bytes and whether
the server honours `Range: bytes=a-b` headers.  `Content-Length` of the HEAD
request is the byte count. -/
structure RemoteFile where
  bytes : List Nat
  supportsRange : Bool
deriving DecidableEq, Repr

/-- Model of `int(requests.head(file_url).headers["Content-Length"])`. -/
def headContentLength (r : RemoteFile) : Nat := r.bytes.length

/-- Model of the body returned by `requests.get(file_url, headers={"Range":
"bytes=firstByte-size"})`: a range-supporting server returns the byte slice
from `firstByte` on (the code's upper bound `file_size` is past the last index
and is clamped by the server); a server without range support ignores the
header and returns the whole body. -/
def rangeGet (r : RemoteFile) (firstByte : Nat) : List Nat :=
  if r.supportsRange then r.bytes.drop firstByte else r.bytes

/-- Embedding of `loader.py::download_file_from_url`.  The local destination is
`none` when `os.path.exists(target_loc)` is false, otherwise `some` of the
bytes already on disk (`os.path.getsize` is their length).  The function opens
the destination in append mode (`"ab"`) and writes every streamed chunk, so the
resulting file is the existing bytes followed by the response body.  The
`file_number` / progress-bar arguments have no effect on the bytes and are
omitted. -/
def download_file_from_url (r : RemoteFile) (localFile : Option (List Nat)) :
    List Nat :=
  let firstByte := match localFile with
    | some bs => bs.length
    | none => 0
  let existing := match localFile with
    | some bs => bs
    | none => []
  existing ++ rangeGet r firstByte

/-- C1: resuming from a strict prefix of the remote bytes (the empty prefix
included) completes to a file byte-identical to the remote resource, of the
remote total size, equal to a fresh full download. -/
theorem download_resume_completes (r : RemoteFile) (lb : List Nat)
    (hr : r.supportsRange = true) (hpre : lb <+: r.bytes)
    (hstrict : lb ≠ r.bytes) :
    download_file_from_url r (some lb) = r.bytes ∧
    (download_file_from_url r (some lb)).length = r.bytes.length ∧
    download_file_from_url r (some lb) = download_file_from_url r none := by
  have hfull : download_file_from_url r (some lb) = r.bytes := by
    obtain ⟨t, ht⟩ := hpre
    simp only [download_file_from_url, rangeGet, hr, if_true]
    rw [← ht, List.drop_left]
  refine ⟨hfull, by rw [hfull], ?_⟩
  rw [hfull]
  simp [download_file_from_url, rangeGet, hr]

/-- Witness for C1 at a concrete resumable download. -/
theorem download_resume_completes_wit :
    (RemoteFile.mk [7, 8, 9] true).supportsRange = true ∧
    [7] <+: [7, 8, 9] ∧ [7] ≠ [7, 8, 9] ∧
    download_file_from_url ⟨[7, 8, 9], true⟩ (some [7]) = [7, 8, 9] :=
  ⟨rfl, ⟨[8, 9], rfl⟩, by decide,
    (download_resume_completes ⟨[7, 8, 9], true⟩ [7] rfl ⟨[8, 9], rfl⟩
      (by decide)).1⟩

/-- C2: when the local file size already equals the remote total size, the
range request degenerates to zero payload bytes and the file is unchanged. -/
theorem download_complete_noop (r : RemoteFile) (lb : List Nat)
    (hr : r.supportsRange = true) (hlen : lb.length = headContentLength r) :
    rangeGet r lb.length = [] ∧
    download_file_from_url r (some lb) = lb := by
  have hz : rangeGet r lb.length = [] := by
    simp [rangeGet, hr, List.drop_eq_nil_iff, hlen, headContentLength]
  exact ⟨hz, by simp [download_file_from_url, hz]⟩

/-- Witness for C2 at a concrete already-complete file. -/
theorem download_complete_noop_wit :
    (RemoteFile.mk [7, 8, 9] true).supportsRange = true ∧
    ([7, 8, 9] : List Nat).length = headContentLength ⟨[7, 8, 9], true⟩ ∧
    download_file_from_url ⟨[7, 8, 9], true⟩ (some [7, 8, 9]) = [7, 8, 9] :=
  ⟨rfl, rfl,
    (download_complete_noop ⟨[7, 8, 9], true⟩ [7, 8, 9] rfl rfl).2⟩

/-- C3 (code bug): the code performs no range-capability check and has no
failure path at all — against a server that ignores the `Range` header and
returns the full body, it appends the entire remote resource to the existing
partial file, producing a corrupted file instead of failing fast with
`RangeUnsupported`.  Concrete failing input: remote bytes `[1, 2, 3]` on a
non-range server, local partial file `[1]`. -/
theorem download_no_range_check :
    download_file_from_url ⟨[1, 2, 3], false⟩ (some [1]) = [1, 1, 2, 3] ∧
    download_file_from_url ⟨[1, 2, 3], false⟩ (some [1]) ≠ [1, 2, 3] := by
  constructor <;> decide

/-- A downloaded tar archive: its member list (member name path, content) and,
when the gzip stream is truncated, the index of the member at which reading
raises `EOFError` (members before it were already extracted). -/
structure Archive where
  members : List (List String × List Nat)
  truncatedAt : Option Nat
deriving DecidableEq, Repr

/-- Outcome of `untar`: which files were written under the target directory,
the returned success flag, and whether `os.remove(tarfile_path)` ran. -/
structure UntarResult where
  extracted : List (List String × List Nat)
  success : Bool
  tarfileRemoved : Bool
deriving DecidableEq, Repr

/-- Embedding of `loader.py::untar` (identical in
`dumps_downloader.py::untar`).  Members are extracted one by one inside a
`try`; an `EOFError` from a truncated archive is caught and `False` returned
at once, before the `os.remove(tarfile_path)` line, so neither the already
extracted files nor the archive file are deleted.  On success the archive file
is removed exactly when `remove_tarfile` is true — and `remove_tarfile`
defaults to `True` in the Python signature. -/
def untar (archive : Archive) (targetDirectory : List String)
    (removeTarfile : Bool := true) : UntarResult :=
  match archive.truncatedAt with
  | some k =>
    { extracted := (archive.members.take k).map fun m =>
        (targetDirectory ++ m.1, m.2)
      success := false
      tarfileRemoved := false }
  | none =>
    { extracted := archive.members.map fun m => (targetDirectory ++ m.1, m.2)
      success := true
      tarfileRemoved := removeTarfile }

/-- The stages of `loader.py::process_archive` that ran after `untar`, plus
what happened to the archive file. -/
structure ProcessOutcome where
  untarSuccess : Bool
  pruneRan : Bool
  repackageRan : Bool
  archiveFileRemoved : Bool
deriving DecidableEq, Repr

/-- Embedding of the post-download part of `loader.py::process_archive`:
`is_successful_untar = untar(target_loc, unique_dump_dir)` (the
`remove_tarfile` default is used), and `remove_excess_files` plus
`tar_directory` run only under `if is_successful_untar`. -/
def process_archive (archive : Archive) (dumpDir : List String) :
    ProcessOutcome :=
  let r := untar archive dumpDir
  { untarSuccess := r.success
    pruneRan := r.success
    repackageRan := r.success
    archiveFileRemoved := r.tarfileRemoved }

/-- C4: on a truncated archive, `untar` reports failure, keeps both the
already-extracted files and the source archive file, and `process_archive`
skips pruning and repackaging. -/
theorem untar_truncated_preserves (archive : Archive)
    (dumpDir : List String) (k : Nat) (ht : archive.truncatedAt = some k) :
    (untar archive dumpDir).success = false ∧
    (untar archive dumpDir).tarfileRemoved = false ∧
    (untar archive dumpDir).extracted =
      (archive.members.take k).map (fun m => (dumpDir ++ m.1, m.2)) ∧
    (process_archive archive dumpDir).pruneRan = false ∧
    (process_archive archive dumpDir).repackageRan = false := by
  simp [untar, process_archive, ht]

/-- Witness for C4 on a concrete archive truncated after its first member. -/
theorem untar_truncated_preserves_wit :
    (Archive.mk [(["a"], [1]), (["b"], [2])] (some 1)).truncatedAt = some 1 ∧
    (untar ⟨[(["a"], [1]), (["b"], [2])], some 1⟩ ["d"]).success = false ∧
    (process_archive ⟨[(["a"], [1]), (["b"], [2])], some 1⟩ ["d"]).pruneRan
      = false :=
  ⟨rfl,
    (untar_truncated_preserves ⟨[(["a"], [1]), (["b"], [2])], some 1⟩
      ["d"] 1 rfl).1,
    (untar_truncated_preserves ⟨[(["a"], [1]), (["b"], [2])], some 1⟩
      ["d"] 1 rfl).2.2.2.1⟩

/-- C5 counterexample: an `untar` call that makes no explicit cleanup request
(the `remove_tarfile` default is used) deletes the archive file on success —
deletion is the implicit default, contradicting the claim that such a call
leaves the archive file in place. -/
theorem untar_default_removes_archive :
    (untar ⟨[(["f"], [1])], none⟩ ["d"]).success = true ∧
    (untar ⟨[(["f"], [1])], none⟩ ["d"]).tarfileRemoved = true := by
  constructor <;> rfl

/-- C5 amended: the archive file is removed exactly when extraction succeeded
and `remove_tarfile` is true; since `remove_tarfile` defaults to true,
deletion on success is implicit unless the caller explicitly opts out with
`remove_tarfile = false`. -/
theorem untar_removal_iff (archive : Archive) (dumpDir : List String)
    (removeTarfile : Bool) :
    (untar archive dumpDir removeTarfile).tarfileRemoved =
      (archive.truncatedAt.isNone && removeTarfile) := by
  cases h : archive.truncatedAt <;> simp [untar, h]

/-- An entry of the directory listing returned by `os.listdir`: a regular
file with its bytes, or a subdirectory. -/
inductive DirEntry
  | file (name : String) (content : List Nat)
  | subdir (name : String)
deriving DecidableEq, Repr

/-- The name under which an entry appears in the listing. -/
def DirEntry.name : DirEntry → String
  | .file n _ => n
  | .subdir n => n

/-- Whether an entry is a regular file (`os.remove` succeeds only on these;
on a directory it raises `IsADirectoryError`). -/
def DirEntry.isRegular : DirEntry → Bool
  | .file _ _ => true
  | .subdir _ => false

/-- The allow-list `issue_related_files` of
`loader.py::remove_excess_files`. -/
def issue_related_files : List String := ["issues.bson", "issue_comments.bson"]

/-- Whether an entry's name is on the allow-list. -/
def DirEntry.allowed (e : DirEntry) : Bool :=
  issue_related_files.contains e.name

/-- Embedding of `loader.py::remove_excess_files` (identical in
`dumps_downloader.py::remove_excess_files`).  It walks the `os.listdir`
listing and calls `os.remove` on every entry whose name is not on the
allow-list; `os.remove` on a subdirectory raises `IsADirectoryError`, which
the function does not catch, so the Python call aborts there — modelled as
`Except.error`.  On success it returns the entries that remain. -/
def remove_excess_files : List DirEntry → Except String (List DirEntry)
  | [] => .ok []
  | e :: rest =>
    if e.allowed then (remove_excess_files rest).map (e :: ·)
    else
      match e with
      | .file _ _ => remove_excess_files rest
      | .subdir _ => .error "IsADirectoryError"

/-- Helper: on a listing whose entries are all allow-listed, the pruner
succeeds and removes nothing. -/
theorem remove_excess_files_all_allowed (entries : List DirEntry)
    (h : ∀ e ∈ entries, e.allowed = true) :
    remove_excess_files entries = .ok entries := by
  induction entries with
  | nil => rfl
  | cons e rest ih =>
    have he : e.allowed = true := h e (List.mem_cons_self e rest)
    have hrest := ih fun x hx => h x (List.mem_cons_of_mem e hx)
    simp [remove_excess_files, he, hrest, Except.map]

/-- C6 counterexample: on a directory containing a subdirectory entry not on
the allow-list, the pruner raises `IsADirectoryError` instead of deleting the
entry — so it does not hold for every existing directory. -/
theorem remove_excess_files_subdir_raises :
    remove_excess_files [DirEntry.subdir "sub"] = .error "IsADirectoryError" :=
  rfl

/-- C6 amended: on every directory whose non-allow-listed entries are all
regular files, the pruner succeeds, keeping exactly the allow-listed entries
(so the two allow-listed filenames are never deleted and everything else is),
and a second run on the pruned listing is a no-op. -/
theorem remove_excess_files_keeps_allowed (entries : List DirEntry)
    (h : ∀ e ∈ entries, e.allowed = false → e.isRegular = true) :
    remove_excess_files entries = .ok (entries.filter DirEntry.allowed) ∧
    remove_excess_files (entries.filter DirEntry.allowed) =
      .ok (entries.filter DirEntry.allowed) := by
  constructor
  · induction entries with
    | nil => rfl
    | cons e rest ih =>
      have hrest := ih fun x hx hxa => h x (List.mem_cons_of_mem e hx) hxa
      by_cases he : e.allowed = true
      · simp [remove_excess_files, he, hrest, Except.map, List.filter_cons]
      · have he' : e.allowed = false := by
          cases hb : e.allowed
          · rfl
          · exact absurd hb he
        have hreg := h e (List.mem_cons_self e rest) he'
        cases e with
        | file n c => simp [remove_excess_files, he', hrest, List.filter_cons]
        | subdir n => simp [DirEntry.isRegular] at hreg
  · exact remove_excess_files_all_allowed _ fun e he =>
      (List.mem_filter.mp he).2

/-- Witness for C6 (amended) on the spec's example listing. -/
theorem remove_excess_files_keeps_allowed_wit :
    (∀ e ∈ [DirEntry.file "issues.bson" [1],
            DirEntry.file "issue_comments.bson" [2],
            DirEntry.file "other.bson" [3],
            DirEntry.file "users.bson" [4]],
        e.allowed = false → e.isRegular = true) ∧
    remove_excess_files
        [DirEntry.file "issues.bson" [1],
         DirEntry.file "issue_comments.bson" [2],
         DirEntry.file "other.bson" [3],
         DirEntry.file "users.bson" [4]] =
      .ok [DirEntry.file "issues.bson" [1],
           DirEntry.file "issue_comments.bson" [2]] :=
  ⟨by decide,
    by
      have h := (remove_excess_files_keeps_allowed
        [DirEntry.file "issues.bson" [1],
         DirEntry.file "issue_comments.bson" [2],
         DirEntry.file "other.bson" [3],
         DirEntry.file "users.bson" [4]] (by decide)).1
      rw [h]
      exact congrArg Except.ok (by decide)⟩

/-- C10: the pruner is partial on subdirectories — whenever the listing
contains a subdirectory entry whose name is not allow-listed, the pruner
raises (`os.remove` applied to a directory) rather than deleting the entry or
completing as a no-op. -/
theorem remove_excess_files_partial_on_subdir (entries : List DirEntry)
    (n : String) (hmem : DirEntry.subdir n ∈ entries)
    (hn : (DirEntry.subdir n).allowed = false) :
    ∃ msg, remove_excess_files entries = .error msg := by
  induction entries with
  | nil => cases hmem
  | cons e rest ih =>
    rcases List.mem_cons.mp hmem with he | he
    · subst he
      exact ⟨"IsADirectoryError", by simp [remove_excess_files, hn]⟩
    · rcases ih he with ⟨msg, hmsg⟩
      by_cases ha : e.allowed = true
      · exact ⟨msg, by simp [remove_excess_files, ha, hmsg, Except.map]⟩
      · have ha' : e.allowed = false := by
          cases hb : e.allowed
          · rfl
          · exact absurd hb ha
        cases e with
        | file m c => exact ⟨msg, by simp [remove_excess_files, ha', hmsg]⟩
        | subdir m =>
          exact ⟨"IsADirectoryError", by simp [remove_excess_files, ha']⟩

/-- Witness for C10 on a concrete listing with a stray subdirectory. -/
theorem remove_excess_files_partial_on_subdir_wit :
    DirEntry.subdir "users" ∈
      [DirEntry.file "issues.bson" [1], DirEntry.subdir "users"] ∧
    (DirEntry.subdir "users").allowed = false ∧
    ∃ msg, remove_excess_files
        [DirEntry.file "issues.bson" [1], DirEntry.subdir "users"] =
      .error msg :=
  ⟨by decide, rfl,
    remove_excess_files_partial_on_subdir
      [DirEntry.file "issues.bson" [1], DirEntry.subdir "users"] "users"
      (by decide) rfl⟩

/-- Literal match: the pattern chars are the initial chars of the input. -/
def litMatch : List Char → List Char → Bool
  | [], _ => true
  | _ :: _, [] => false
  | p :: ps, c :: cs => p == c && litMatch ps cs

/-- The regex fragment `.tar.gz` (seven characters; `.` is any character but
a newline) matched against the first seven characters of the input. -/
def wild7Match : List Char → Bool
  | c0 :: c1 :: c2 :: c3 :: c4 :: c5 :: c6 :: _ =>
    (c0 != '\n') && (c1 == 't') && (c2 == 'a') && (c3 == 'r') &&
      (c4 != '\n') && (c5 == 'g') && (c6 == 'z')
  | _ => false

/-- Greedy `(.*)`: the longest capture length `k` such that the captured
chars contain no newline and `.tar.gz` matches right after them. -/
def greedyCaptureLen (rest : List Char) : Option Nat :=
  (List.range (rest.length + 1)).reverse.find? fun k =>
    (rest.take k).all (fun c => c != '\n') && wild7Match (rest.drop k)

/-- The literal head `mongo-dump-` of the filename pattern. -/
def mongoDumpLit : List Char := "mongo-dump-".toList

/-- Embedding of `re.search("mongo-dump-(.*).tar.gz", s).group(1)` as used by
`is_between_dates`: scan start positions left to right; at a position where
the literal `mongo-dump-` matches, take the greedy capture followed by the
`.tar.gz` fragment; if no capture completes there, keep scanning.  `none`
models `re.search` returning `None` (so `.group(1)` raises
`AttributeError`). -/
def reSearchMongoDump : List Char → Option (List Char)
  | [] => none
  | c :: rest =>
    if litMatch mongoDumpLit (c :: rest) then
      match greedyCaptureLen ((c :: rest).drop mongoDumpLit.length) with
      | some k => some (((c :: rest).drop mongoDumpLit.length).take k)
      | none => reSearchMongoDump rest
    else reSearchMongoDump rest

/-- Splitting at `-` characters, modelling the literal `-` separators of the
`%Y-%m-%d` format regex. -/
def splitOnDash : List Char → List (List Char)
  | [] => [[]]
  | c :: cs =>
    if c = '-' then [] :: splitOnDash cs
    else
      match splitOnDash cs with
      | [] => [[c]]
      | g :: gs => (c :: g) :: gs

/-- All characters are decimal digits. -/
def allDigits (cs : List Char) : Bool := cs.all Char.isDigit

/-- Decimal value of a digit string. -/
def digitsToNat (cs : List Char) : Nat :=
  cs.foldl (fun acc c => acc * 10 + (c.toNat - 48)) 0

/-- Length of a month, with Gregorian leap years, as enforced by
`datetime`'s constructor. -/
def daysInMonth (y m : Nat) : Nat :=
  if m = 2 then (if (y % 4 = 0 ∧ y % 100 ≠ 0) ∨ y % 400 = 0 then 29 else 28)
  else if m = 4 ∨ m = 6 ∨ m = 9 ∨ m = 11 then 30
  else 31

/-- Embedding of `datetime.strptime(s, "%Y-%m-%d")` (CPython: `%Y` is exactly
four digits, `%m`/`%d` one or two digits, and the constructed date must be a
real calendar day), yielding the `(year, month, day)` triple or `none` for
`ValueError`. -/
def parseIsoDateChars (cs : List Char) : Option (Nat × Nat × Nat) :=
  match splitOnDash cs with
  | [ys, ms, ds] =>
    if ys.length = 4 ∧ allDigits ys = true
        ∧ 1 ≤ ms.length ∧ ms.length ≤ 2 ∧ allDigits ms = true
        ∧ 1 ≤ ds.length ∧ ds.length ≤ 2 ∧ allDigits ds = true then
      let y := digitsToNat ys
      let m := digitsToNat ms
      let d := digitsToNat ds
      if 1 ≤ m ∧ m ≤ 12 ∧ 1 ≤ d ∧ d ≤ daysInMonth y m then
        some (y, m, d)
      else none
    else none
  | _ => none

/-- Wrapper of `parseIsoDateChars` taking a Lean string. -/
def parseIsoDate (s : String) : Option (Nat × Nat × Nat) :=
  parseIsoDateChars s.toList

/-- Comparison of `datetime` values at day granularity: lexicographic on
`(year, month, day)`. -/
def dateLe (a b : Nat × Nat × Nat) : Bool :=
  if a.1 = b.1 then
    if a.2.1 = b.2.1 then decide (a.2.2 ≤ b.2.2) else decide (a.2.1 < b.2.1)
  else decide (a.1 < b.1)

/-- The mathematical inclusive day order on `(year, month, day)` triples. -/
def dateLeP (a b : Nat × Nat × Nat) : Prop :=
  a.1 < b.1 ∨ (a.1 = b.1 ∧ (a.2.1 < b.2.1 ∨ (a.2.1 = b.2.1 ∧ a.2.2 ≤ b.2.2)))

/-- Equivalence: `dateLe` decides exactly the inclusive lexicographic day
order. -/
theorem dateLe_eq_true_iff (a b : Nat × Nat × Nat) :
    dateLe a b = true ↔ dateLeP a b := by
  unfold dateLe dateLeP
  by_cases h1 : a.1 = b.1
  · by_cases h2 : a.2.1 = b.2.1
    · simp [h1, h2]
    · simp [h1, h2]
  · simp [h1]

/-- Embedding of `loader.py::is_between_dates` (the `landscape/utils.py` copy
only makes the same pattern an argument with the same default): parse the
bounds with `strptime`, extract the filename's date with `re.search` (a
non-match raises `AttributeError` when `.group(1)` is taken), parse it, and
compare `start_date <= tar_date <= end_date`. -/
def is_between_dates (tar_filename start_date end_date : String) :
    Except String Bool :=
  match parseIsoDate start_date with
  | none => .error "ValueError"
  | some sd =>
    match parseIsoDate end_date with
    | none => .error "ValueError"
    | some ed =>
      match reSearchMongoDump tar_filename.toList with
      | none => .error "AttributeError"
      | some cap =>
        match parseIsoDateChars cap with
        | none => .error "ValueError"
        | some td => .ok (dateLe sd td && dateLe td ed)

/-- Model of `filename.endswith(suf)` on characters. -/
def strEndsWith (cs suf : List Char) : Bool := litMatch suf.reverse cs.reverse

/-- Embedding of `loader.py::extract_archive_links` applied to the `href`
values found in the listing page: keep `url + filename` for every href ending
in `tar.gz` whose date is in range.  The body contains no `try`, so an
exception from `is_between_dates` propagates and aborts the whole loop —
modelled by the `Except` short-circuit. -/
def extract_archive_links (url : String) (hrefs : List String)
    (start_date end_date : String) : Except String (List String) :=
  match hrefs with
  | [] => .ok []
  | f :: rest =>
    if strEndsWith f.toList "tar.gz".toList then
      match is_between_dates f start_date end_date with
      | .error msg => .error msg
      | .ok true =>
        (extract_archive_links url rest start_date end_date).map
          (fun links => (url ++ f) :: links)
      | .ok false => extract_archive_links url rest start_date end_date
    else extract_archive_links url rest start_date end_date

/-- C7: on a filename whose embedded date matches the pattern (and valid
bounds), `is_between_dates` returns true exactly when the date lies in the
inclusive day-granularity range `[start_date, end_date]`. -/
theorem is_between_dates_inclusive (f s e : String)
    (sd ed td : Nat × Nat × Nat) (cap : List Char)
    (hs : parseIsoDate s = some sd) (he : parseIsoDate e = some ed)
    (hf : reSearchMongoDump f.toList = some cap)
    (ht : parseIsoDateChars cap = some td) :
    is_between_dates f s e = .ok (dateLe sd td && dateLe td ed) ∧
    (is_between_dates f s e = .ok true ↔ dateLeP sd td ∧ dateLeP td ed) := by
  have h1 : is_between_dates f s e = .ok (dateLe sd td && dateLe td ed) := by
    simp only [is_between_dates, hs, he, hf, ht]
  refine ⟨h1, ?_⟩
  rw [h1]
  simp [dateLe_eq_true_iff]

/-- Witness for C7 at the lower boundary date itself (which is included). -/
theorem is_between_dates_inclusive_wit :
    parseIsoDate "2020-01-01" = some (2020, 1, 1) ∧
    parseIsoDate "2020-01-31" = some (2020, 1, 31) ∧
    reSearchMongoDump ("mongo-dump-2020-01-01.tar.gz").toList =
      some ("2020-01-01").toList ∧
    parseIsoDateChars ("2020-01-01").toList = some (2020, 1, 1) ∧
    (is_between_dates "mongo-dump-2020-01-01.tar.gz" "2020-01-01" "2020-01-31"
        = .ok true ↔
      dateLeP (2020, 1, 1) (2020, 1, 1) ∧ dateLeP (2020, 1, 1) (2020, 1, 31)) :=
  ⟨by decide, by decide, by decide, by decide,
    (is_between_dates_inclusive "mongo-dump-2020-01-01.tar.gz" "2020-01-01"
      "2020-01-31" (2020, 1, 1) (2020, 1, 31) (2020, 1, 1)
      ("2020-01-01").toList (by decide) (by decide) (by decide)
      (by decide)).2⟩

/-- C8 counterexample: a listing whose first `tar.gz` link does not match the
date pattern makes `extract_archive_links` raise `AttributeError` for the
whole page — the well-formed second link is never collected, so the resolver
does not skip the bad link and continue. -/
theorem extract_archive_links_error_on_malformed :
    extract_archive_links "http://x/"
        ["other.tar.gz", "mongo-dump-2020-01-15.tar.gz"]
        "2020-01-01" "2020-12-31" = .error "AttributeError" := rfl

/-- C8 amended: on a filename that does not match the pattern,
`is_between_dates` fails (`AttributeError` from `.group(1)` on `None`), and
`extract_archive_links` does not catch it: the error propagates and aborts
processing, so the remaining links are never examined. -/
theorem extract_archive_links_aborts (url s e f : String)
    (rest : List String) (sd ed : Nat × Nat × Nat)
    (hs : parseIsoDate s = some sd) (he : parseIsoDate e = some ed)
    (hend : strEndsWith f.toList ("tar.gz").toList = true)
    (hf : reSearchMongoDump f.toList = none) :
    is_between_dates f s e = .error "AttributeError" ∧
    extract_archive_links url (f :: rest) s e = .error "AttributeError" := by
  have h1 : is_between_dates f s e = .error "AttributeError" := by
    simp only [is_between_dates, hs, he, hf]
  refine ⟨h1, ?_⟩
  unfold extract_archive_links
  rw [if_pos hend, h1]

/-- Witness for C8 (amended) on a concrete malformed link followed by a
well-formed one. -/
theorem extract_archive_links_aborts_wit :
    parseIsoDate "2020-01-01" = some (2020, 1, 1) ∧
    parseIsoDate "2020-12-31" = some (2020, 12, 31) ∧
    strEndsWith ("other.tar.gz").toList ("tar.gz").toList = true ∧
    reSearchMongoDump ("other.tar.gz").toList = none ∧
    extract_archive_links "http://x/"
        ["other.tar.gz", "mongo-dump-2020-01-15.tar.gz"]
        "2020-01-01" "2020-12-31" = .error "AttributeError" :=
  ⟨by decide, by decide, by decide, by decide,
    (extract_archive_links_aborts "http://x/" "2020-01-01" "2020-12-31"
      "other.tar.gz" ["mongo-dump-2020-01-15.tar.gz"] (2020, 1, 1)
      (2020, 12, 31) (by decide) (by decide) (by decide) (by decide)).2⟩

/-- Embedding of `loader.py::tar_directory`: `os.walk` visits every regular
file of the tree rooted at `dirPath` and `tar.add(os.path.join(root, file))`
stores it in a fresh archive under the walked path, i.e. `dirPath` followed by
the file's path relative to `dirPath`.  The source tree is given as the list
of its regular files, each as (path relative to `dirPath`, bytes).  The
produced archive is complete, so `truncatedAt = none`.  (The optional
`remove_directory` deletes the source tree afterwards and does not affect the
archive's contents.) -/
def tar_directory (dirPath : List String)
    (files : List (List String × List Nat)) : Archive :=
  { members := files.map fun pc => (dirPath ++ pc.1, pc.2)
    truncatedAt := none }

/-- C9: repackaging writes every regular file into the new archive preserving
its path, and the round trip is lossless — extracting the produced archive
under any root succeeds and yields, relative to `root ++ dirPath`, exactly the
source file set with identical bytes. -/
theorem tar_directory_roundtrip (dirPath root : List String)
    (files : List (List String × List Nat)) :
    (∀ pc ∈ files, (dirPath ++ pc.1, pc.2) ∈
      (tar_directory dirPath files).members) ∧
    (untar (tar_directory dirPath files) root).success = true ∧
    ((untar (tar_directory dirPath files) root).extracted.map fun pc =>
        (pc.1.drop (root.length + dirPath.length), pc.2)) = files := by
  refine ⟨fun pc hpc => List.mem_map_of_mem _ hpc, rfl, ?_⟩
  simp only [untar, tar_directory, List.map_map]
  have hid : ∀ pc ∈ files,
      ((fun pc => (pc.1.drop (root.length + dirPath.length), pc.2)) ∘
        (fun m => (root ++ m.1, m.2)) ∘
        (fun pc : List String × List Nat => (dirPath ++ pc.1, pc.2))) pc
        = pc := by
    intro pc _
    have hdrop : (root ++ (dirPath ++ pc.1)).drop
        (root.length + dirPath.length) = pc.1 := by
      rw [← List.append_assoc, ← List.length_append, List.drop_left]
    simp [Function.comp, hdrop]
  calc files.map _ = files.map id := List.map_congr_left hid
    _ = files := List.map_id files

end IssuesLandscape
